import Mathlib

/-!
Verification of the ansible-universe role build tool (package `universe`).

This file shallowly embeds the parts of `universe/__init__.py` and the rule
modules (`manifest_has_author.py`, `syntax_is_ok.py`, `subdir_is_defined.py`,
`copy_has_owner.py`, `task_has_no_remote_user.py`, `template_has_owner.py`,
`variable_is_prefixed.py`) that the spec claims talk about, and proves or
refutes each claim.  Python values read from YAML documents are modelled by
the `Yaml` inductive; Python dicts are modelled by association lists in
insertion order; raising code is modelled with `Except String`.
-/

set_option autoImplicit false

namespace Universe

/-- Model of a parsed YAML value (what `yaml.load` returns). -/
inductive Yaml where
  | null
  | bool (b : Bool)
  | str (s : String)
  | int (n : Int)
  | list (items : List Yaml)
  | map (entries : List (String × Yaml))
deriving Repr

/-- Association-list model of a Python dict: first binding of a key wins on
lookup (`setKey` keeps keys distinct, so there is at most one). -/
def lookup? {α : Type} (kvs : List (String × α)) (k : String) : Option α :=
  match kvs with
  | [] => none
  | (k', v) :: rest => if k' = k then some v else lookup? rest k

/-- Membership test of a key, the model of the Python `in` operator on dicts. -/
def hasKey {α : Type} (kvs : List (String × α)) (k : String) : Bool :=
  match kvs with
  | [] => false
  | (k', _) :: rest => k' = k || hasKey rest k

/-- Model of a Python dict assignment `d[k] = v`: replace the binding in place
when the key is present, append a new binding otherwise. -/
def setKey {α : Type} (kvs : List (String × α)) (k : String) (v : α) : List (String × α) :=
  match kvs with
  | [] => [(k, v)]
  | (k', v') :: rest => if k' = k then (k, v) :: rest else (k', v') :: setKey rest k v

/-- A task entry of a task file is a YAML dict. -/
def Task : Type := List (String × Yaml)

/-- The on-disk state of one role directory, restricted to the files the
embedded operations read.

  * `meta` models `meta/main.yml`: `none` when the file is absent,
    `some none` when it unmarshalls to a false-ish document (null or empty),
    `some (some doc)` when it unmarshalls to the dict `doc`.
  * `defaults` and `vars` model `defaults/main.yml` and `vars/main.yml`:
    `none` when absent, otherwise the unmarshalled dict.
  * `tasksFiles` models the `.yml` files under the `tasks` directory, in
    directory enumeration order (the order `os.listdir` and hence both
    `glob.glob` and `os.walk` report them, which is not sorted); a file whose
    content is `none` is one `unmarshall` raises on or returns null for.
  * `name` is the basename of the role directory. -/
structure Role where
  name : String
  meta : Option (Option (List (String × Yaml)))
  defaults : Option (List (String × Yaml))
  vars : Option (List (String × Yaml))
  tasksFiles : List (String × Option (List Task))

/-- Embedding of `Role.get_manifest`: error when `meta/main.yml` is missing,
otherwise `unmarshall(self.meta_path) or {}`. -/
def Role.get_manifest (r : Role) : Except String (List (String × Yaml)) :=
  match r.meta with
  | none => .error "missing role manifest"
  | some none => .ok []
  | some (some doc) => .ok doc

/-- Embedding of the `Role.version` property. -/
def Role.version (r : Role) : Except String Yaml :=
  match r.get_manifest with
  | .error e => .error e
  | .ok m =>
    match lookup? m "version" with
    | some v => .ok v
    | none => .error "missing 'version' attribute in manifest"

/-- Embedding of the `Role.galaxy_info` property. -/
def Role.galaxy_info (r : Role) : Except String Yaml :=
  match r.get_manifest with
  | .error e => .error e
  | .ok m =>
    match lookup? m "galaxy_info" with
    | some v => .ok v
    | none => .error "missing 'galaxy_info' attribute in manifest"

/-- Embedding of the `Role.author` property: `self.galaxy_info["author"]`,
catching only `KeyError`; an error raised by `galaxy_info` itself propagates,
and indexing a non-dict raises a `TypeError`. -/
def Role.author (r : Role) : Except String Yaml :=
  match r.galaxy_info with
  | .error e => .error e
  | .ok gi =>
  match gi with
  | .map entries =>
    match lookup? entries "author" with
    | some v => .ok v
    | none => .error "missing 'author' attribute in manifest"
  | _ => .error "TypeError: galaxy_info is not subscriptable by string"

/-- Embedding of the `Role.description` property, shaped like `Role.author`. -/
def Role.description (r : Role) : Except String Yaml :=
  match r.galaxy_info with
  | .error e => .error e
  | .ok gi =>
  match gi with
  | .map entries =>
    match lookup? entries "description" with
    | some v => .ok v
    | none => .error "missing 'description' attribute in manifest"
  | _ => .error "TypeError: galaxy_info is not subscriptable by string"

/-- Embedding of the `Role.prefix` property (renamed, `prefix` is a Lean
keyword): the manifest value under the key `prefix` when present, otherwise
the role name lower-cased with `-` replaced by `_` and a final `_`. -/
def Role.prefixValue (r : Role) : Except String String :=
  match r.get_manifest with
  | .error e => .error e
  | .ok m =>
  match lookup? m "prefix" with
  | some (.str p) => .ok p
  | some _ => .error "TypeError: prefix is not a string"
  | none => .ok ((r.name.toLower.replace "-" "_") ++ "_")

/-- Embedding of the `Role.platforms` property: the whole body runs under a
bare `except` re-raised as one fixed error, so any failure (missing manifest,
missing `galaxy_info`, `galaxy_info` without a `.get` method) collapses into
the `missing platforms attribute` error; the default for an absent
`platforms` key is the empty dict `{}`. -/
def Role.platforms (r : Role) : Except String Yaml :=
  match r.galaxy_info with
  | .ok (.map entries) => .ok ((lookup? entries "platforms").getD (.map []))
  | _ => .error "missing platforms attribute in manifest"

/-- Embedding of the `Role.include_when` property:
`self.get_manifest().get("include_when", {})`, restricted to dict values. -/
def Role.include_when (r : Role) : Except String (List (String × Yaml)) :=
  match r.get_manifest with
  | .error e => .error e
  | .ok m =>
  match lookup? m "include_when" with
  | none => .ok []
  | some (.map entries) => .ok entries
  | some _ => .error "TypeError: include_when is not a dict"

/-- One entry of the mapping `Role.get_variables` builds:
`{"description": ..., "value": ..., "type": ...}`.  A Python `None` in the
first two fields is `Yaml.null`; `type` is `"default"`, `"var"` or `None`. -/
structure VarEntry where
  description : Yaml
  value : Yaml
  type : Option String
deriving Repr

/-- The second loop of `Role.get_variables`: fold the `vars/main.yml` entries
into the accumulated mapping, raising the `set twice` error on a key that is
already present (the message models `Error(key, "variable set twice in vars/
and defaults/")`). -/
def addVars (res : List (String × VarEntry)) (varsEntries : List (String × Yaml)) :
    Except String (List (String × VarEntry)) :=
  match varsEntries with
  | [] => .ok res
  | (k, v) :: rest =>
    if hasKey res k then .error (k ++ ": variable set twice in vars/ and defaults/")
    else addVars (res ++ [(k, ⟨Yaml.null, v, some "var"⟩)]) rest

/-- In-place update `res[key]["description"] = value` of the third loop of
`Role.get_variables`. -/
def updateDescription (res : List (String × VarEntry)) (k : String) (d : Yaml) :
    List (String × VarEntry) :=
  res.map fun kv => if kv.1 = k then (kv.1, { kv.2 with description := d }) else kv

/-- The third loop of `Role.get_variables`: merge the manifest variable
descriptions, adding descriptions to existing entries and creating
description-only entries otherwise. -/
def addManifestVars (res : List (String × VarEntry)) (mvars : List (String × Yaml)) :
    List (String × VarEntry) :=
  match mvars with
  | [] => res
  | (k, v) :: rest =>
    addManifestVars
      (if hasKey res k then updateDescription res k v
       else res ++ [(k, ⟨v, Yaml.null, none⟩)]) rest

/-- The first loop of `Role.get_variables`: one non-constant entry per
defaults-file binding. -/
def defaultsEntries (defaultsKvs : List (String × Yaml)) : List (String × VarEntry) :=
  defaultsKvs.foldl (fun res kv => setKey res kv.1 ⟨Yaml.null, kv.2, some "default"⟩) []

/-- Embedding of `Role.get_variables`: defaults first, then the vars file
(collision with an existing key is fatal), then the manifest variable
descriptions; the manifest is only read by the third loop, after the
`set twice` check already ran. -/
def Role.get_variables (r : Role) : Except String (List (String × VarEntry)) :=
  let res := defaultsEntries (r.defaults.getD [])
  match addVars res (r.vars.getD []) with
  | .error e => .error e
  | .ok res =>
  match r.get_manifest with
  | .error e => .error e
  | .ok m =>
  match lookup? m "variables" with
  | none => .ok (addManifestVars res [])
  | some (.map mvars) => .ok (addManifestVars res mvars)
  | some _ => .error "TypeError: variables is not a dict"

/-- Embedding of `Role.is_legacy`: the main task file exists and holds at
least one entry with neither a `fail` nor an `include` key.  A main task
file `unmarshall` cannot turn into a list of dicts raises. -/
def Role.is_legacy (r : Role) : Except String Bool :=
  match lookup? r.tasksFiles "main.yml" with
  | none => .ok false
  | some none => .error "cannot iterate the unmarshalled tasks/main.yml"
  | some (some ts) => .ok (ts.any fun t => !(hasKey t "fail") && !(hasKey t "include"))

/-- The document `init_manifest` marshalls to `meta/main.yml`. -/
def init_manifest_doc : List (String × Yaml) :=
  [("galaxy_info", .map
      [("min_ansible_version", .str "1.8.4"),
       ("description", .null),
       ("platforms", .list []),
       ("license", .str "MIT"),
       ("author", .null)]),
   ("variables", .map []),
   ("dependencies", .list []),
   ("include_when", .map []),
   ("version", .str "0.0.1"),
   ("usage_complement", .str "Optional. Indicate additional usage instructions."),
   ("maintenance_complement", .str "Optional. Indicate additional maintenance instructions.")]

/-- Embedding of `init_manifest`: marshall the fixed default document to the
manifest path (with `overwrite = True`, the write is unconditional). -/
def init_manifest (r : Role) : Role :=
  { r with meta := some (some init_manifest_doc) }

mutual

/-- Model of the Python `repr` of a value, as used when a list is formatted
with `"%s" % list(...)`. -/
def pyRepr : Yaml → String
  | .null => "None"
  | .bool true => "True"
  | .bool false => "False"
  | .str s => "'" ++ s ++ "'"
  | .int n => toString n
  | .list xs => "[" ++ pyReprList xs ++ "]"
  | .map entries => "\x7b" ++ pyReprEntries entries ++ "\x7d"

def pyReprList : List Yaml → String
  | [] => ""
  | [x] => pyRepr x
  | x :: xs => pyRepr x ++ ", " ++ pyReprList xs

def pyReprEntries : List (String × Yaml) → String
  | [] => ""
  | [(k, v)] => "'" ++ k ++ "': " ++ pyRepr v
  | (k, v) :: rest => "'" ++ k ++ "': " ++ pyRepr v ++ ", " ++ pyReprEntries rest

end

/-- Model of the Python `str` of a value (`"%s" % value`): a string renders
without quotes, everything else as its `repr`. -/
def pyStr : Yaml → String
  | .str s => s
  | y => pyRepr y

/-- Model of the Python truthiness test `if x:` on the values we model. -/
def yamlTruthy : Yaml → Bool
  | .null => false
  | .bool b => b
  | .str s => !s.isEmpty
  | .int n => n != 0
  | .list xs => !xs.isEmpty
  | .map entries => !entries.isEmpty

/-- The name of the platform-guard entry `generate_maintask` injects. -/
def platformGuardName : String := "Assert the target platform is supported"

/-- `list(platform["name"] for platform in platforms)`. -/
def platformNames (platforms : List Yaml) : Except String (List Yaml) :=
  match platforms with
  | [] => .ok []
  | p :: rest =>
    match p with
    | .map entries =>
      match lookup? entries "name" with
      | none => .error "KeyError: 'name'"
      | some n =>
        match platformNames rest with
        | .error e => .error e
        | .ok ns => .ok (n :: ns)
    | _ => .error "TypeError: platform is not subscriptable by string"

/-- The conditional-fail entry guarding the supported platforms. -/
def platformGuard (names : List Yaml) : Task :=
  [("name", .str platformGuardName),
   ("fail", .map
      [("msg", .str "unsupported platform -- please contact the role maintainer for support")]),
   ("when", .str ("ansible_distribution not in " ++ pyStr (.list names)))]

/-- The `if platforms:` head of `generate_maintask`: the guard entry when the
platforms value is truthy, nothing otherwise. -/
def guardTasks (platformsY : Yaml) : Except String (List Task) :=
  if yamlTruthy platformsY then
    match platformsY with
    | .list ps =>
      match platformNames ps with
      | .error e => .error e
      | .ok names => .ok [platformGuard names]
    | _ => .error "TypeError: platforms entries are not subscriptable"
  else .ok []

/-- Python equality of a task name against the guard name string (a non-string
value never equals a string). -/
def isGuardName : Yaml → Bool
  | .str s => s = platformGuardName
  | _ => false

/-- The legacy loop of `generate_maintask`: copy every existing entry, only
skipping a previously injected platform guard (an entry with a `fail` key and
the guard name) when platforms are declared. -/
def legacyKeep (platformsTruthy : Bool) : List Task → Except String (List Task)
  | [] => .ok []
  | t :: rest =>
    if platformsTruthy && hasKey t "fail" then
      match lookup? t "name" with
      | none => .error "KeyError: 'name'"
      | some n =>
        match legacyKeep platformsTruthy rest with
        | .error e => .error e
        | .ok ks => .ok (if isGuardName n then ks else t :: ks)
    else
      match legacyKeep platformsTruthy rest with
      | .error e => .error e
      | .ok ks => .ok (t :: ks)

/-- One inclusion entry of the non-legacy loop of `generate_maintask`: the
condition is the include_when value for the fragment filename, defaulting to
the unconditional `True`. -/
def taskfileEntry (iw : List (String × Yaml)) (name : String) : Task :=
  [("name", .str ("Taskfile " ++ name ++ " is included")),
   ("include", .str name),
   ("when", (lookup? iw name).getD (.bool true))]

/-- The non-legacy loop of `generate_maintask`: one inclusion entry per
fragment filename, in the enumeration order of the names; the role
include_when property is re-read for every fragment, as in the source loop. -/
def fragmentEntries (r : Role) (names : List String) : Except String (List Task) :=
  match names with
  | [] => .ok []
  | name :: rest =>
    match r.include_when with
    | .error e => .error e
    | .ok iw =>
      match fragmentEntries r rest with
      | .error e => .error e
      | .ok es => .ok (taskfileEntry iw name :: es)

/-- Embedding of `generate_maintask`: read the platforms, inject the guard
when platforms are declared, then either copy the handcrafted entries (legacy
mode) or emit one inclusion entry per `.yml` fragment under `tasks/`
excluding `tasks/main.yml` itself, in directory enumeration order (the order
`glob.glob` reports, which is not sorted).  The returned list is the content
marshalled to `tasks/main.yml`. -/
def generate_maintask (r : Role) : Except String (List Task) :=
  match r.platforms with
  | .error e => .error e
  | .ok platformsY =>
  match guardTasks platformsY with
  | .error e => .error e
  | .ok guard =>
  match r.is_legacy with
  | .error e => .error e
  | .ok true =>
    (match lookup? r.tasksFiles "main.yml" with
     | some (some ts) =>
       match legacyKeep (yamlTruthy platformsY) ts with
       | .error e => .error e
       | .ok kept => .ok (guard ++ kept)
     | _ => .error "cannot iterate the unmarshalled tasks/main.yml")
  | .ok false =>
    match fragmentEntries r ((r.tasksFiles.map Prod.fst).filter (fun n => n ≠ "main.yml")) with
    | .error e => .error e
    | .ok entries => .ok (guard ++ entries)

/-- The display name of a task in the lint scan:
`task.get("name", "#%i" % (idx + 1))` rendered by `%s`. -/
def taskName (t : Task) (idx : Nat) : String :=
  match lookup? t "name" with
  | some v => pyStr v
  | none => "#" ++ toString (idx + 1)

/-- The object key of a task in the lint scan:
`"task '%s[%s]'"` over the fragment filename and the task name. -/
def taskKey (filename : String) (idx : Nat) (t : Task) : String :=
  "task '" ++ filename ++ "[" ++ taskName t idx ++ "]'"

/-- The inner loop of `get_tasks`: index every entry of one parsed fragment
into the objects dict. -/
def addFileTasks (objects : List (String × Task)) (filename : String) (idx : Nat) :
    List Task → List (String × Task)
  | [] => objects
  | t :: rest => addFileTasks (setKey objects (taskKey filename idx t) t) filename (idx + 1) rest

/-- Embedding of `get_tasks`: enumerate the task entries of every `.yml` file
under the tasks directory; a file `unmarshall` raises on is traced and
skipped (`except` around the per-file body), never fatal. -/
def get_tasks (files : List (String × Option (List Task))) : List (String × Task) :=
  files.foldl
    (fun objects file =>
      match file.2 with
      | none => objects
      | some ts => addFileTasks objects file.1 0 ts)
    []

/-- Character-level worker for `baseName`. -/
def baseNameAux : List Char → List Char → List Char
  | [], cur => cur.reverse
  | c :: rest, cur => if c = '/' then baseNameAux rest [] else baseNameAux rest (c :: cur)

/-- The basename of a path (the component after the last slash). -/
def baseName (p : String) : String :=
  String.mk (baseNameAux p.data [])

/-- Python `s.startswith(pre)` over the underlying characters. -/
def strStartsWith (s pre : String) : Bool :=
  List.isPrefixOf pre.data s.data

/-- `fnmatch.fnmatch(filename, ".*.hmap")`: a literal dot, anything, then a
literal `.hmap`. -/
def hmapMatch (filename : String) : Bool :=
  match filename.data with
  | [] => false
  | c :: rest => c = '.' && List.isSuffixOf ".hmap".data rest

/-- Embedding of `clean`: the build directory is removed first when present
(the returned flag is its final existence); then, unless the role is legacy,
the generated `README.md` and `tasks/main.yml` are removed together with
stray `.*.hmap` files; a legacy role keeps its handcrafted `tasks/main.yml`.
`files` holds the normalized paths `os.walk` visits outside the already
removed build directory. -/
def clean (r : Role) (files : List String) : Except String (List String) × Bool :=
  (match r.is_legacy with
   | .error e => .error e
   | .ok legacy =>
     let generated := if legacy then ["README.md"] else ["README.md", "tasks/main.yml"]
     .ok (files.filter fun path => !(hmapMatch (baseName path) || generated.contains path)),
   false)

/-- Process state `check_syntax` mutates: the current working directory and
whether the scratch directory of this call exists. -/
structure SynState where
  cwd : String
  tmpdirExists : Bool
deriving Repr, DecidableEq

/-- Result of one `check_syntax` call: a returned boolean or a propagated
exception. -/
inductive SynOutcome where
  | ok (b : Bool)
  | raised (msg : String)
deriving Repr, DecidableEq

/-- Success or failure of each external call `check_syntax` performs inside
its `try` block (the three `helpers["marshall"]` writes and the
`ansible-playbook --syntax-check` run). -/
structure SynEnv where
  marshallPlaybookOk : Bool
  marshallInventoryOk : Bool
  marshallConfigOk : Bool
  syntaxCheckOk : Bool
deriving Repr, DecidableEq

/-- The argument object of `check_syntax`, whose `path` attribute is read
first: `none` models an object without that attribute (class `Role` of
`universe/__init__.py` defines no `path`, so the actual call always takes
that branch). -/
structure SynRole where
  path? : Option String
  name : String

/-- Embedding of `check_syntax` of `syntax_is_ok.py` as a state
transformer.  `role.path` is read before anything is acquired; then the
scratch directory is created, the working directory saved and changed, the
`try` body runs (stopping at its first failing step, `except: raise`
re-raises), and the `finally` block restores the saved directory and removes
the scratch directory on both the return and the raise paths. -/
def syntax_check (role : SynRole) (env : SynEnv) (tmpdir : String) (s0 : SynState) :
    SynOutcome × SynState :=
  match role.path? with
  | none => (.raised "AttributeError: 'Role' object has no attribute 'path'", s0)
  | some _ =>
    let s1 : SynState := { s0 with tmpdirExists := true }
    let savedCwd := s1.cwd
    let s2 : SynState := { s1 with cwd := tmpdir }
    let body : SynOutcome :=
      if !env.marshallPlaybookOk then .raised "marshall playbook.yml raised"
      else if !env.marshallInventoryOk then .raised "marshall inventory.cfg raised"
      else if !env.marshallConfigOk then .raised "marshall ansible.cfg raised"
      else if !env.syntaxCheckOk then .raised "ansible-playbook --syntax-check returned non-zero"
      else .ok true
    let s3 : SynState := { s2 with cwd := savedCwd }
    let s4 : SynState := { s3 with tmpdirExists := false }
    (body, s4)

/-- The object a rule predicate receives: the role itself for `role` rules,
a variable name for `variable` rules, a sub-directory basename for `subdir`
rules, a task dict for `task` rules. -/
inductive RuleObject where
  | roleObj (r : Role)
  | varName (s : String)
  | subdirName (s : String)
  | taskObj (t : Task)

/-- One entry of `MANIFESTS` as assembled in `universe/__init__.py`: the
module name plus the keys of the MANIFEST dict of the module.  Optional
fields model keys a module may omit (accessing an absent key raises
`KeyError`). -/
structure RuleManifest where
  name : String
  flag? : Option String
  type? : Option String
  message? : Option String
  predicate? : Option (Role → RuleObject → Except String Bool)

/-- Python substring test `sub in s`. -/
def strContainsSub (s sub : String) : Bool :=
  (s.splitOn sub).length > 1

/-- Predicate of `manifest_has_author.py`:
`lambda role, helpers: "author" in role.manifest["galaxy_info"]`.  Class
`Role` of `universe/__init__.py` defines `get_manifest()` but no attribute
`manifest`, so the attribute read raises `AttributeError` for every object
the checker can pass here. -/
def manifest_has_author_pred (_ : Role) (_ : RuleObject) : Except String Bool :=
  .error "AttributeError: 'Role' object has no attribute 'manifest'"

/-- Predicate of `syntax_is_ok.py` (`check_syntax`): its first statement
reads `role.path`, an attribute class `Role` does not define, so the call
raises `AttributeError` before creating its scratch directory (compare
`check_syntax` above with `path? := none`). -/
def syntax_is_ok_pred (_ : Role) (_ : RuleObject) : Except String Bool :=
  .error "AttributeError: 'Role' object has no attribute 'path'"

/-- Predicate of `copy_has_owner.py`:
`not "copy" in task or "owner" in task["copy"]`.  The checker only applies
`task` rules to task dicts; the other constructors map to the `TypeError` a
membership test on a non-container raises. -/
def copy_has_owner_pred (_ : Role) (obj : RuleObject) : Except String Bool :=
  match obj with
  | .taskObj t =>
    match lookup? t "copy" with
    | none => .ok true
    | some (.map entries) => .ok (hasKey entries "owner")
    | some (.str s) => .ok (strContainsSub s "owner")
    | some (.list xs) => .ok (xs.any fun y => match y with | .str s => s = "owner" | _ => false)
    | some _ => .error "TypeError: argument of type is not iterable"
  | _ => .error "TypeError: argument of type is not iterable"

/-- The DEFINED tuple of `subdir_is_defined.py`. -/
def DEFINED : List String :=
  ["defaults", "files", "handlers", "meta", "tasks", "templates", "vars", "library"]

/-- Predicate of `subdir_is_defined.py`: `basename in DEFINED` (membership
of a non-string object in a tuple of strings is simply false). -/
def subdir_is_defined_pred (_ : Role) (obj : RuleObject) : Except String Bool :=
  match obj with
  | .subdirName s => .ok (DEFINED.contains s)
  | _ => .ok false

/-- Predicate of `task_has_no_remote_user.py`: `not "remote_user" in task`. -/
def task_has_no_remote_user_pred (_ : Role) (obj : RuleObject) : Except String Bool :=
  match obj with
  | .taskObj t => .ok (!(hasKey t "remote_user"))
  | _ => .error "TypeError: argument of type is not iterable"

/-- Predicate of `variable_is_prefixed.py`:
`variable.startswith(helpers["role"].prefix)`. -/
def variable_is_prefixed_pred (helperRole : Role) (obj : RuleObject) : Except String Bool :=
  match obj with
  | .varName s =>
    match helperRole.prefixValue with
    | .error e => .error e
    | .ok p => .ok (strStartsWith s p)
  | _ => .error "AttributeError: object has no attribute startswith"

/-- Modelled from the spec: the module `manifest_has_license` is named by
`MANIFESTS` in `universe/__init__.py` but its file is not in the repository
snapshot; per the manifest schema (`galaxy_info.license`) and the rule-record
shape of the spec, it is a `role` rule under the `manifest` flag checking the
license field. -/
def manifest_has_license_pred (_ : Role) (obj : RuleObject) : Except String Bool :=
  match obj with
  | .roleObj r =>
    match r.galaxy_info with
    | .error e => .error e
    | .ok (.map entries) => .ok (hasKey entries "license")
    | .ok _ => .error "TypeError: galaxy_info is not a dict"
  | _ => .error "AttributeError: object has no attribute galaxy_info"

/-- Modelled from the spec: the module `manifest_has_platforms` is named by
`MANIFESTS` but missing from the snapshot; a `role` rule under the
`manifest` flag checking `galaxy_info.platforms`. -/
def manifest_has_platforms_pred (_ : Role) (obj : RuleObject) : Except String Bool :=
  match obj with
  | .roleObj r =>
    match r.galaxy_info with
    | .error e => .error e
    | .ok (.map entries) => .ok (hasKey entries "platforms")
    | .ok _ => .error "TypeError: galaxy_info is not a dict"
  | _ => .error "AttributeError: object has no attribute galaxy_info"

/-- Modelled from the spec: the module `manifest_has_version` is named by
`MANIFESTS` but missing from the snapshot; a `role` rule under the
`manifest` flag checking the top-level `version` field. -/
def manifest_has_version_pred (_ : Role) (obj : RuleObject) : Except String Bool :=
  match obj with
  | .roleObj r =>
    match r.get_manifest with
    | .error e => .error e
    | .ok m => .ok (hasKey m "version")
  | _ => .error "AttributeError: object has no attribute get_manifest"

/-- Modelled from the spec: the module `task_has_name` is named by
`MANIFESTS` but missing from the snapshot; a `task` rule checking that a
task has a `name` key. -/
def task_has_name_pred (_ : Role) (obj : RuleObject) : Except String Bool :=
  match obj with
  | .taskObj t => .ok (hasKey t "name")
  | _ => .error "TypeError: argument of type is not iterable"

/-- Modelled from the spec: the module `variable_is_documented` is named by
`MANIFESTS` but missing from the snapshot; a `variable` rule checking that
the merged variable entry carries a description. -/
def variable_is_documented_pred (helperRole : Role) (obj : RuleObject) : Except String Bool :=
  match obj with
  | .varName s =>
    match helperRole.get_variables with
    | .error e => .error e
    | .ok vs =>
      match lookup? vs s with
      | none => .error ("KeyError: " ++ s)
      | some entry => .ok (match entry.description with | .null => false | _ => true)
  | _ => .error "AttributeError: object is not a variable name"

/-- MANIFEST of `copy_has_owner.py`. -/
def copy_has_owner : RuleManifest :=
  { name := "copy_has_owner", flag? := some "owner", type? := some "task",
    message? := some "missing 'owner' attribute, the file will be owned by the varying current user",
    predicate? := some copy_has_owner_pred }

/-- MANIFEST of `manifest_has_author.py`. -/
def manifest_has_author : RuleManifest :=
  { name := "manifest_has_author", flag? := some "manifest", type? := some "role",
    message? := some "missing author attribute, please specify the role author",
    predicate? := some manifest_has_author_pred }

/-- Modelled from the spec: record of the missing `manifest_has_license`
module (see `manifest_has_license_pred`). -/
def manifest_has_license : RuleManifest :=
  { name := "manifest_has_license", flag? := some "manifest", type? := some "role",
    message? := some "missing license attribute, please specify the role license",
    predicate? := some manifest_has_license_pred }

/-- Modelled from the spec: record of the missing `manifest_has_platforms`
module (see `manifest_has_platforms_pred`). -/
def manifest_has_platforms : RuleManifest :=
  { name := "manifest_has_platforms", flag? := some "manifest", type? := some "role",
    message? := some "missing platforms attribute, please specify the supported platforms",
    predicate? := some manifest_has_platforms_pred }

/-- Modelled from the spec: record of the missing `manifest_has_version`
module (see `manifest_has_version_pred`). -/
def manifest_has_version : RuleManifest :=
  { name := "manifest_has_version", flag? := some "manifest", type? := some "role",
    message? := some "missing version attribute, please specify the role version",
    predicate? := some manifest_has_version_pred }

/-- MANIFEST of `subdir_is_defined.py`. -/
def subdir_is_defined : RuleManifest :=
  { name := "subdir_is_defined", flag? := some "layout", type? := some "subdir",
    message? := some "undefined role sub-directory",
    predicate? := some subdir_is_defined_pred }

/-- MANIFEST of `syntax_is_ok.py`. -/
def syntax_is_ok : RuleManifest :=
  { name := "syntax_is_ok", flag? := some "syntax", type? := some "role",
    message? := some "syntax error",
    predicate? := some syntax_is_ok_pred }

/-- Modelled from the spec: record of the missing `task_has_name` module
(see `task_has_name_pred`); no flag of its own, so it is selected under its
module name. -/
def task_has_name : RuleManifest :=
  { name := "task_has_name", flag? := none, type? := some "task",
    message? := some "missing name attribute, please name the task",
    predicate? := some task_has_name_pred }

/-- MANIFEST of `task_has_no_remote_user.py`; the module declares no `flag`
key, so selection falls back to the module name. -/
def task_has_no_remote_user : RuleManifest :=
  { name := "task_has_no_remote_user", flag? := none, type? := some "task",
    message? := some "do not set a remote_user for a task, use sudo_*",
    predicate? := some task_has_no_remote_user_pred }

/-- MANIFEST of `template_has_owner.py`: the module only declares
`{"check_task": check}`, following an older rule interface, so the record
has no `flag`, `type`, `message` or `predicate` key at all — any access to
those keys raises `KeyError`. -/
def template_has_owner : RuleManifest :=
  { name := "template_has_owner", flag? := none, type? := none,
    message? := none, predicate? := none }

/-- Modelled from the spec: record of the missing `variable_is_documented`
module (see `variable_is_documented_pred`); no flag of its own. -/
def variable_is_documented : RuleManifest :=
  { name := "variable_is_documented", flag? := none, type? := some "variable",
    message? := some "missing variable description, please document the variable",
    predicate? := some variable_is_documented_pred }

/-- MANIFEST of `variable_is_prefixed.py`. -/
def variable_is_prefixed : RuleManifest :=
  { name := "variable_is_prefixed", flag? := some "naming", type? := some "variable",
    message? := some "unexpected variable prefix (you can change the expected prefix in the role manifest)",
    predicate? := some variable_is_prefixed_pred }

/-- The MANIFESTS tuple of `universe/__init__.py`, in source order. -/
def MANIFESTS : List RuleManifest :=
  [copy_has_owner, manifest_has_author, manifest_has_license, manifest_has_platforms,
   manifest_has_version, subdir_is_defined, syntax_is_ok, task_has_name,
   task_has_no_remote_user, template_has_owner, variable_is_documented,
   variable_is_prefixed]

/-- The rule-selection list comprehension of `check`: a rule is selected
when the `all` sentinel is among the enabled flags, or its flag (defaulting
to its name) is. -/
def selectedManifests (flags : List String) : List RuleManifest :=
  MANIFESTS.filter fun m => flags.contains "all" || flags.contains (m.flag?.getD m.name)

/-- The eager `filter(lambda manifest: manifest["type"] == t, manifests)` of
`check`: evaluating the filter raises `KeyError` at the first selected rule
without a `type` key. -/
def filterByType (ms : List RuleManifest) (t : String) : Except String (List RuleManifest) :=
  match ms with
  | [] => .ok []
  | m :: rest =>
    match m.type? with
    | none => .error ("KeyError: 'type' in rule " ++ m.name)
    | some mt =>
      match filterByType rest t with
      | .error e => .error e
      | .ok rest' => .ok (if mt = t then m :: rest' else rest')

/-- The warning string `check_objects` appends:
`"** WARNING: %s\n   source: %s\n   flag: %s"`. -/
def warningText (msg source flg : String) : String :=
  "** WARNING: " ++ msg ++ "\n   source: " ++ source ++ "\n   flag: " ++ flg

/-- Evaluation of one rule against one object inside `check_objects`: read
the predicate (KeyError when absent), run it, and on a false result render
the warning from the message and the flag-or-name. -/
def evalRule (helperRole : Role) (key : String) (obj : RuleObject) (m : RuleManifest) :
    Except String (List String) :=
  match m.predicate? with
  | none => .error ("KeyError: 'predicate' in rule " ++ m.name)
  | some p =>
    match p helperRole obj with
    | .error e => .error e
    | .ok true => .ok []
    | .ok false =>
      match m.message? with
      | none => .error ("KeyError: 'message' in rule " ++ m.name)
      | some msg => .ok [warningText msg key (m.flag?.getD m.name)]

/-- The inner loop of `check_objects`: every rule against one object, in
rule order, appending to the shared warnings accumulator. -/
def rulesPass (helperRole : Role) (key : String) (obj : RuleObject)
    (ms : List RuleManifest) (acc : List String) : Except String (List String) :=
  match ms with
  | [] => .ok acc
  | m :: rest =>
    match evalRule helperRole key obj m with
    | .error e => .error e
    | .ok w => rulesPass helperRole key obj rest (acc ++ w)

/-- The outer loop of `check_objects`: every object in enumeration order. -/
def check_objects (helperRole : Role) (objects : List (String × RuleObject))
    (ms : List RuleManifest) (acc : List String) : Except String (List String) :=
  match objects with
  | [] => .ok acc
  | (key, obj) :: rest =>
    match rulesPass helperRole key obj ms acc with
    | .error e => .error e
    | .ok acc' => check_objects helperRole rest ms acc'

/-- Embedding of `check`: select the rules by flag, then run the four
`check_objects` passes in the fixed source order — the role itself, the
variables, the sub-directories, the tasks — each pass appending to the one
shared warnings list.  Per source evaluation order, the objects dict of a
pass is built before the type filter of that pass runs.  `dirEntries` models
`os.listdir(".")` with an is-directory flag per entry, in enumeration
order.  The returned list is what `check` joins with newlines into the
warnings report. -/
def check (r : Role) (dirEntries : List (String × Bool)) (flags : List String) :
    Except String (List String) :=
  let ms := selectedManifests flags
  let roleObjects := [("role '" ++ r.name ++ "'", RuleObject.roleObj r)]
  match filterByType ms "role" with
  | .error e => .error e
  | .ok roleMs =>
  match check_objects r roleObjects roleMs [] with
  | .error e => .error e
  | .ok acc1 =>
  match r.get_variables with
  | .error e => .error e
  | .ok vars =>
  let varObjects := vars.map fun kv => ("variable '" ++ kv.1 ++ "'", RuleObject.varName kv.1)
  match filterByType ms "variable" with
  | .error e => .error e
  | .ok varMs =>
  match check_objects r varObjects varMs acc1 with
  | .error e => .error e
  | .ok acc2 =>
  let subObjects := (dirEntries.filter fun d => !(strStartsWith d.1 ".") && d.2).map
      fun d => ("subdir '" ++ d.1 ++ "'", RuleObject.subdirName d.1)
  match filterByType ms "subdir" with
  | .error e => .error e
  | .ok subMs =>
  match check_objects r subObjects subMs acc2 with
  | .error e => .error e
  | .ok acc3 =>
  let taskObjects := (get_tasks r.tasksFiles).map fun kv => (kv.1, RuleObject.taskObj kv.2)
  match filterByType ms "task" with
  | .error e => .error e
  | .ok taskMs =>
  check_objects r taskObjects taskMs acc3

/-- Ordering specification, following the spec words rather than the
accumulator-threading source loop: the warnings of one object are the
warnings of each rule in rule-evaluation order. -/
def objectWarnings (helperRole : Role) (key : String) (obj : RuleObject) :
    List RuleManifest → Except String (List String)
  | [] => .ok []
  | m :: rest =>
    match evalRule helperRole key obj m with
    | .error e => .error e
    | .ok w =>
      match objectWarnings helperRole key obj rest with
      | .error e => .error e
      | .ok ws => .ok (w ++ ws)

/-- Ordering specification, following the spec words: the warnings of one
target kind are the per-object warning blocks in object-enumeration order. -/
def kindWarnings (helperRole : Role) (objects : List (String × RuleObject))
    (ms : List RuleManifest) : Except String (List String) :=
  match objects with
  | [] => .ok []
  | (key, obj) :: rest =>
    match objectWarnings helperRole key obj ms with
    | .error e => .error e
    | .ok w =>
      match kindWarnings helperRole rest ms with
      | .error e => .error e
      | .ok ws => .ok (w ++ ws)

/-! Helper lemmas about the association-list model. -/

theorem hasKey_append {α : Type} (l1 l2 : List (String × α)) (k : String) :
    hasKey (l1 ++ l2) k = (hasKey l1 k || hasKey l2 k) := by
  induction l1 with
  | nil => simp [hasKey]
  | cons kv rest ih => cases kv; simp [hasKey, ih, Bool.or_assoc]

theorem hasKey_eq_isSome_lookup {α : Type} (l : List (String × α)) (k : String) :
    hasKey l k = (lookup? l k).isSome := by
  induction l with
  | nil => simp [hasKey, lookup?]
  | cons kv rest ih =>
    cases kv with
    | mk k' v =>
      by_cases hk : k' = k <;> simp [hasKey, lookup?, hk, ih]

theorem lookup?_append_left {α : Type} (l1 l2 : List (String × α)) (k : String) (e : α)
    (h : lookup? l1 k = some e) : lookup? (l1 ++ l2) k = some e := by
  induction l1 with
  | nil => simp [lookup?] at h
  | cons kv rest ih =>
    cases kv with
    | mk k' v =>
      by_cases hk : k' = k <;> simp [lookup?, hk] at h ⊢ <;> simp_all

theorem setKey_of_not_hasKey {α : Type} (l : List (String × α)) (k : String) (v : α)
    (h : hasKey l k = false) : setKey l k v = l ++ [(k, v)] := by
  induction l with
  | nil => simp [setKey]
  | cons kv rest ih =>
    cases kv with
    | mk k' v' =>
      simp [hasKey] at h
      simp [setKey, h.1, ih h.2]

/-! Sample roles the closed witness and counterexample theorems evaluate on. -/

/-- A role whose manifest has a `galaxy_info` section without an `author`
key, an empty tasks directory and no variable files. -/
def roleNoAuthor : Role :=
  { name := "foo", meta := some (some [("galaxy_info", .map [])]),
    defaults := none, vars := none, tasksFiles := [] }

/-- A non-legacy role whose tasks directory enumerates `b.yml` before
`a.yml` (directory enumeration order is not sorted). -/
def roleUnsortedTasks : Role :=
  { name := "foo", meta := some (some [("galaxy_info", .map [])]),
    defaults := none, vars := none,
    tasksFiles := [("b.yml", some []), ("a.yml", some [])] }

/-- A legacy role: `tasks/main.yml` holds one handcrafted entry (neither a
`fail` nor an `include` key), and no platforms are declared. -/
def roleLegacy : Role :=
  { name := "foo", meta := some (some [("galaxy_info", .map [])]),
    defaults := none, vars := none,
    tasksFiles := [("main.yml", some [[("debug", .null)]])] }

/-- A role with one defaults variable, one colliding vars variable and a
manifest description for the defaults variable. -/
def roleVarClash : Role :=
  { name := "foo", meta := some (some [("galaxy_info", .map [])]),
    defaults := some [("foo_x", .int 1)], vars := some [("foo_x", .int 2)],
    tasksFiles := [] }

/-- A role with one defaults variable described in the manifest and no vars
file. -/
def roleVarDescribed : Role :=
  { name := "foo",
    meta := some (some
      [("galaxy_info", .map []),
       ("variables", .map [("foo_x", .str "the x value")])]),
    defaults := some [("foo_x", .int 1)], vars := none, tasksFiles := [] }

/-- A role with a manifest but nothing else, for running `check`. -/
def roleBare : Role :=
  { name := "foo", meta := some (some []), defaults := none, vars := none,
    tasksFiles := [] }

/-- A role directory holding nothing at all. -/
def roleEmptyDir : Role :=
  { name := "foo", meta := none, defaults := none, vars := none, tasksFiles := [] }

/-- A role whose manifest file exists but unmarshalls to null. -/
def roleNullManifest : Role :=
  { name := "foo", meta := some none, defaults := none, vars := none, tasksFiles := [] }

/-! The claims. -/

/-- C6: on a role directory without an existing manifest, `init` writes
exactly the fixed default document; `get_manifest` then returns it, its
version is `0.0.1`, its license (under `galaxy_info`) is `MIT`, and its
variables, dependencies and include_when maps are empty. -/
theorem init_manifest_gives_defaults (r : Role) (_h : r.meta = none) :
    (init_manifest r).meta = some (some init_manifest_doc) ∧
    (init_manifest r).get_manifest = .ok init_manifest_doc ∧
    lookup? init_manifest_doc "version" = some (.str "0.0.1") ∧
    (∃ gi, lookup? init_manifest_doc "galaxy_info" = some (.map gi) ∧
      lookup? gi "license" = some (.str "MIT")) ∧
    lookup? init_manifest_doc "variables" = some (.map []) ∧
    lookup? init_manifest_doc "dependencies" = some (.list []) ∧
    lookup? init_manifest_doc "include_when" = some (.map []) := by
  refine ⟨rfl, rfl, rfl, ⟨_, rfl, rfl⟩, rfl, rfl, rfl⟩

/-- C6 witness: the theorem applied to a role directory holding nothing. -/
theorem init_manifest_gives_defaults_witness :
    roleEmptyDir.meta = none ∧
    (init_manifest roleEmptyDir).get_manifest = .ok init_manifest_doc := by
  refine ⟨rfl, ?_⟩
  exact (init_manifest_gives_defaults roleEmptyDir rfl).2.1

/-- C10: when the manifest file exists but unmarshalls to a null or empty
document, `get_manifest` returns the empty mapping (never `None`), so each
required-field accessor fails with a descriptive missing-attribute error —
`version` and `galaxy_info` with their own, `author` and `description` with
the `galaxy_info` one (the first attribute missing on their access path) —
and never with a null-dereference `TypeError`. -/
theorem get_manifest_empty_doc_accessors (r : Role)
    (h : r.meta = some none ∨ r.meta = some (some [])) :
    r.get_manifest = .ok [] ∧
    r.version = .error "missing 'version' attribute in manifest" ∧
    r.galaxy_info = .error "missing 'galaxy_info' attribute in manifest" ∧
    r.author = .error "missing 'galaxy_info' attribute in manifest" ∧
    r.description = .error "missing 'galaxy_info' attribute in manifest" := by
  have hm : r.get_manifest = .ok [] := by
    rcases h with h | h <;> simp [Role.get_manifest, h]
  have hg : r.galaxy_info = .error "missing 'galaxy_info' attribute in manifest" := by
    simp [Role.galaxy_info, hm, lookup?]
  refine ⟨hm, ?_, hg, ?_, ?_⟩
  · simp [Role.version, hm, lookup?]
  · simp [Role.author, hg]
  · simp [Role.description, hg]

/-- C10 witness: the theorem applied to a role whose manifest file
unmarshalls to null. -/
theorem get_manifest_empty_doc_accessors_witness :
    roleNullManifest.get_manifest = .ok [] ∧
    roleNullManifest.author = .error "missing 'galaxy_info' attribute in manifest" := by
  have h := get_manifest_empty_doc_accessors roleNullManifest (Or.inl rfl)
  exact ⟨h.1, h.2.2.2.1⟩

/-- C9: `check_syntax` leaves the working directory where it started and
never leaves its scratch directory behind, on every execution path — the
early attribute failure, a failing scratch-file write, a failing external
validator run and the success path alike. -/
theorem syntax_check_restores_state (role : SynRole) (env : SynEnv) (tmpdir : String)
    (s0 : SynState) (h : s0.tmpdirExists = false) :
    ((syntax_check role env tmpdir s0).2).cwd = s0.cwd ∧
    ((syntax_check role env tmpdir s0).2).tmpdirExists = false := by
  cases hp : role.path? <;> simp [syntax_check, hp, h]

/-- C9 witness: the theorem applied to a call whose playbook write raises. -/
theorem syntax_check_restores_state_witness :
    ((syntax_check ⟨some "/roles/foo", "foo"⟩ ⟨false, true, true, true⟩ "/tmp/x"
        ⟨"/home", false⟩).2).cwd = "/home" ∧
    ((syntax_check ⟨some "/roles/foo", "foo"⟩ ⟨false, true, true, true⟩ "/tmp/x"
        ⟨"/home", false⟩).2).tmpdirExists = false :=
  syntax_check_restores_state ⟨some "/roles/foo", "foo"⟩ ⟨false, true, true, true⟩
    "/tmp/x" ⟨"/home", false⟩ rfl

/-- C7: an unparseable fragment file contributes nothing to the lint task
scan and aborts nothing: `get_tasks` (which is total — the per-file
`except` keeps it from failing) returns exactly the tasks of the other,
parseable fragment files. -/
theorem get_tasks_skips_unparseable (before after : List (String × Option (List Task)))
    (bad : String) :
    get_tasks (before ++ (bad, none) :: after) = get_tasks (before ++ after) := by
  unfold get_tasks
  rw [List.foldl_append, List.foldl_append, List.foldl_cons]

/-- C8: `clean` always ends with the build-cache directory gone; on a
non-legacy role the generated `README.md` and `tasks/main.yml` are removed
while `meta/main.yml` survives exactly when it was present; on a legacy
role the handcrafted `tasks/main.yml` survives exactly when present. -/
theorem clean_removes_generated_only (r : Role) (files : List String) :
    (clean r files).2 = false ∧
    (∀ res, r.is_legacy = .ok false → (clean r files).1 = .ok res →
      "README.md" ∉ res ∧ "tasks/main.yml" ∉ res ∧
      ("meta/main.yml" ∈ res ↔ "meta/main.yml" ∈ files)) ∧
    (∀ res, r.is_legacy = .ok true → (clean r files).1 = .ok res →
      ("tasks/main.yml" ∈ res ↔ "tasks/main.yml" ∈ files)) := by
  refine ⟨rfl, ?_, ?_⟩
  · intro res hleg hres
    rw [clean, hleg] at hres
    simp only [Bool.false_eq_true, if_false, Except.ok.injEq] at hres
    subst hres
    refine ⟨?_, ?_, ?_⟩
    · intro hmem
      exact absurd (List.mem_filter.mp hmem).2 (by decide)
    · intro hmem
      exact absurd (List.mem_filter.mp hmem).2 (by decide)
    · constructor
      · intro hmem; exact (List.mem_filter.mp hmem).1
      · intro hmem; exact List.mem_filter.mpr ⟨hmem, by decide⟩
  · intro res hleg hres
    rw [clean, hleg] at hres
    simp only [if_true, Except.ok.injEq] at hres
    subst hres
    constructor
    · intro hmem; exact (List.mem_filter.mp hmem).1
    · intro hmem; exact List.mem_filter.mpr ⟨hmem, by decide⟩

/-- C8 witness: the theorem applied to a non-legacy role directory holding
the three files of the end-to-end scenario. -/
theorem clean_removes_generated_only_witness :
    roleBare.is_legacy = .ok false ∧
    (clean roleBare ["README.md", "tasks/main.yml", "meta/main.yml"]).1
      = .ok ["meta/main.yml"] ∧
    "README.md" ∉ (["meta/main.yml"] : List String) ∧
    ("meta/main.yml" ∈ (["meta/main.yml"] : List String) ↔
      "meta/main.yml" ∈ (["README.md", "tasks/main.yml", "meta/main.yml"] : List String)) := by
  have h := (clean_removes_generated_only roleBare
    ["README.md", "tasks/main.yml", "meta/main.yml"]).2.1
    ["meta/main.yml"] rfl rfl
  exact ⟨rfl, rfl, h.1, h.2.2⟩

/-- C4: a role whose aggregation file holds a hand-authored entry (neither
a `fail` nor an `include` key) is legacy, and regenerating with no declared
platforms rewrites `tasks/main.yml` with exactly the existing entries — the
hand-authored entry survives unchanged. -/
theorem legacy_regeneration_preserves_entries (r : Role) (ts : List Task) (t : Task) (p : Yaml)
    (hmain : lookup? r.tasksFiles "main.yml" = some (some ts))
    (hmem : t ∈ ts)
    (hfail : hasKey t "fail" = false)
    (hincl : hasKey t "include" = false)
    (hplat : r.platforms = .ok p)
    (htruthy : yamlTruthy p = false) :
    r.is_legacy = .ok true ∧ generate_maintask r = .ok ts := by
  have hleg : r.is_legacy = .ok true := by
    simp only [Role.is_legacy, hmain, Except.ok.injEq]
    rw [List.any_eq_true]
    exact ⟨t, hmem, by simp [hfail, hincl]⟩
  have hguard : guardTasks p = .ok [] := by
    simp [guardTasks, htruthy]
  have hkeep : ∀ l, legacyKeep false l = .ok l := by
    intro l
    induction l with
    | nil => rfl
    | cons hd tl ih => simp [legacyKeep, ih]
  refine ⟨hleg, ?_⟩
  simp [generate_maintask, hplat, hguard, hleg, hmain, htruthy, hkeep]

/-- C4 witness: the theorem applied to a legacy role with one handcrafted
debug entry and no platforms. -/
theorem legacy_regeneration_preserves_entries_witness :
    roleLegacy.is_legacy = .ok true ∧
    generate_maintask roleLegacy = .ok [[("debug", .null)]] :=
  legacy_regeneration_preserves_entries roleLegacy [[("debug", .null)]]
    [("debug", .null)] (.map []) rfl (List.mem_singleton.mpr rfl) rfl rfl rfl rfl

/-- The non-legacy loop emits `taskfileEntry iw` per fragment name once the
role include_when property resolves to `iw`. -/
theorem fragmentEntries_eq (r : Role) (iw : List (String × Yaml))
    (hiw : r.include_when = .ok iw) :
    ∀ names, fragmentEntries r names = .ok (names.map (taskfileEntry iw)) := by
  intro names
  induction names with
  | nil => rfl
  | cons n rest ih => simp [fragmentEntries, hiw, ih]

/-- C2 counterexample: on a role whose tasks directory enumerates `b.yml`
before `a.yml`, the regenerated list holds the `b.yml` entry first — the
enumeration is the unsorted `glob.glob` order, not lexicographic by
filename as the claim states. -/
theorem generate_maintask_not_lexicographic :
    generate_maintask roleUnsortedTasks
      = .ok [taskfileEntry [] "b.yml", taskfileEntry [] "a.yml"] ∧
    [taskfileEntry [] "b.yml", taskfileEntry [] "a.yml"]
      ≠ [taskfileEntry [] "a.yml", taskfileEntry [] "b.yml"] := by
  constructor
  · rfl
  · intro h
    have h0 := congrArg
      (fun l => match l with
        | ((_, Yaml.str s) :: _) :: _ => s
        | _ => "") h
    simp only [taskfileEntry] at h0
    exact absurd h0 (by decide)

/-- C2 amended: for a non-legacy role, regenerating the aggregated task
list emits, after the optional platform guard, exactly one inclusion entry
per task fragment file (excluding the aggregation file itself) in directory
enumeration order — the order `glob.glob` reports, not lexicographic — with
the include_when condition of the fragment, defaulting to unconditional. -/
theorem generate_maintask_enumeration_order (r : Role) (iw : List (String × Yaml))
    (out : List Task)
    (hleg : r.is_legacy = .ok false)
    (hiw : r.include_when = .ok iw)
    (hout : generate_maintask r = .ok out) :
    ∃ guard, out = guard ++
      ((r.tasksFiles.map Prod.fst).filter (fun n => n ≠ "main.yml")).map (taskfileEntry iw) := by
  cases hp : r.platforms with
  | error e => simp [generate_maintask, hp] at hout
  | ok py =>
    cases hg : guardTasks py with
    | error e => simp [generate_maintask, hp, hg] at hout
    | ok guard =>
      simp only [generate_maintask, hp, hg, hleg,
        fragmentEntries_eq r iw hiw, Except.ok.injEq] at hout
      exact ⟨guard, hout.symm⟩

/-- C2 amended witness: the amended theorem applied to the unsorted role. -/
theorem generate_maintask_enumeration_order_witness :
    generate_maintask roleUnsortedTasks
      = .ok [taskfileEntry [] "b.yml", taskfileEntry [] "a.yml"] ∧
    (∃ guard, [taskfileEntry [] "b.yml", taskfileEntry [] "a.yml"] = guard ++
      ((roleUnsortedTasks.tasksFiles.map Prod.fst).filter
        (fun n => n ≠ "main.yml")).map (taskfileEntry [])) :=
  ⟨rfl, generate_maintask_enumeration_order roleUnsortedTasks []
    [taskfileEntry [] "b.yml", taskfileEntry [] "a.yml"] rfl rfl rfl⟩

/-! Lemmas about the variable-merge loops, for the merge-invariant claim. -/

theorem hasKey_setKey {α : Type} (l : List (String × α)) (k k1 : String) (v : α) :
    hasKey (setKey l k v) k1 = (hasKey l k1 || (k = k1)) := by
  induction l with
  | nil => simp [setKey, hasKey]
  | cons kv rest ih =>
    cases kv with
    | mk k' v' =>
      by_cases hk : k' = k
      · subst hk
        by_cases hk1 : k' = k1 <;> simp [setKey, hasKey, hk1]
      · simp [setKey, hasKey, hk, ih, Bool.or_assoc]

theorem hasKey_false_iff {α : Type} (l : List (String × α)) (k : String) :
    hasKey l k = false ↔ k ∉ l.map Prod.fst := by
  induction l with
  | nil => simp [hasKey]
  | cons kv rest ih =>
    cases kv with
    | mk k' v =>
      by_cases hk : k' = k
      · subst hk; simp [hasKey]
      · simp [hasKey, hk, Ne.symm hk, ih]

theorem hasKey_defaultsEntries_aux (ds : List (String × Yaml))
    (res : List (String × VarEntry)) (k : String) :
    hasKey (ds.foldl (fun res kv => setKey res kv.1 ⟨Yaml.null, kv.2, some "default"⟩) res) k
      = (hasKey res k || hasKey ds k) := by
  induction ds generalizing res with
  | nil => simp [hasKey]
  | cons kv rest ih =>
    cases kv with
    | mk k0 v0 => simp [List.foldl_cons, ih, hasKey_setKey, hasKey, Bool.or_assoc]

theorem hasKey_defaultsEntries (ds : List (String × Yaml)) (k : String) :
    hasKey (defaultsEntries ds) k = hasKey ds k := by
  unfold defaultsEntries
  rw [hasKey_defaultsEntries_aux]
  simp [hasKey]

theorem defaultsEntries_aux_eq_append (ds : List (String × Yaml)) :
    ∀ res : List (String × VarEntry), (∀ kv ∈ ds, hasKey res kv.1 = false) →
    (ds.map Prod.fst).Nodup →
    ds.foldl (fun res kv => setKey res kv.1 ⟨Yaml.null, kv.2, some "default"⟩) res
      = res ++ ds.map (fun kv => (kv.1, (⟨Yaml.null, kv.2, some "default"⟩ : VarEntry))) := by
  induction ds with
  | nil => intro res _ _; simp
  | cons kv rest ih =>
    intro res hres hnd
    cases kv with
    | mk k0 v0 =>
      have h0 : hasKey res k0 = false := hres (k0, v0) (List.mem_cons_self _ _)
      have hnd2 : (k0 :: rest.map Prod.fst).Nodup := by simpa using hnd
      have hnd' := List.nodup_cons.mp hnd2
      have hres' : ∀ kv ∈ rest,
          hasKey (res ++ [(k0, (⟨Yaml.null, v0, some "default"⟩ : VarEntry))]) kv.1 = false := by
        intro kv hkv
        rw [hasKey_append]
        have h1 : hasKey res kv.1 = false := hres kv (List.mem_cons_of_mem _ hkv)
        have h2 : ¬ (k0 = kv.1) :=
          fun he => hnd'.1 (he ▸ List.mem_map_of_mem Prod.fst hkv)
        simp [h1, hasKey, h2]
      rw [List.foldl_cons, setKey_of_not_hasKey _ _ _ h0, ih _ hres' hnd'.2]
      simp

theorem lookup?_map_entry {α β : Type} (l : List (String × α)) (g : α → β) (k : String) :
    lookup? (l.map (fun kv => (kv.1, g kv.2))) k = (lookup? l k).map g := by
  induction l with
  | nil => rfl
  | cons kv rest ih =>
    cases kv with
    | mk k' v => by_cases hk : k' = k <;> simp [lookup?, hk, ih]

theorem lookup?_defaultsEntries (ds : List (String × Yaml)) (k : String)
    (hnd : (ds.map Prod.fst).Nodup) :
    lookup? (defaultsEntries ds) k
      = (lookup? ds k).map (fun v => (⟨Yaml.null, v, some "default"⟩ : VarEntry)) := by
  unfold defaultsEntries
  rw [defaultsEntries_aux_eq_append ds [] (by intro kv _; rfl) hnd]
  simpa using lookup?_map_entry ds (fun v => (⟨Yaml.null, v, some "default"⟩ : VarEntry)) k

theorem addVars_error_of_mem (vs : List (String × Yaml)) :
    ∀ res : List (String × VarEntry), ∀ k : String,
    hasKey res k = true → hasKey vs k = true →
    ∃ k2, addVars res vs = .error (k2 ++ ": variable set twice in vars/ and defaults/") := by
  induction vs with
  | nil => intro res k _ hvs; simp [hasKey] at hvs
  | cons kv rest ih =>
    intro res k hres hvs
    cases kv with
    | mk k0 v0 =>
      by_cases h0 : hasKey res k0 = true
      · exact ⟨k0, by simp [addVars, h0]⟩
      · have hk : ¬ (k0 = k) := by
          intro he
          exact h0 (by rw [he]; exact hres)
        have hvs' : hasKey rest k = true := by simpa [hasKey, hk] using hvs
        have hres' : hasKey (res ++ [(k0, (⟨Yaml.null, v0, some "var"⟩ : VarEntry))]) k = true := by
          rw [hasKey_append, hres]; simp
        obtain ⟨k2, he2⟩ := ih _ k hres' hvs'
        refine ⟨k2, ?_⟩
        simp only [addVars, h0, if_false]
        exact he2

theorem addVars_ok_lookup (vs : List (String × Yaml)) :
    ∀ res res2 : List (String × VarEntry), addVars res vs = .ok res2 →
    ∀ k e, lookup? res k = some e → lookup? res2 k = some e := by
  induction vs with
  | nil =>
    intro res res2 ha k e h
    simp only [addVars, Except.ok.injEq] at ha
    subst ha; exact h
  | cons kv rest ih =>
    intro res res2 ha k e h
    cases kv with
    | mk k0 v0 =>
      by_cases h0 : hasKey res k0 = true
      · simp [addVars, h0] at ha
      · simp only [addVars, h0, if_false] at ha
        exact ih _ _ ha k e (lookup?_append_left _ _ _ _ h)

theorem lookup?_updateDescription_self (res : List (String × VarEntry)) (k : String) (d : Yaml) :
    lookup? (updateDescription res k d) k
      = (lookup? res k).map (fun e => { e with description := d }) := by
  induction res with
  | nil => rfl
  | cons kv rest ih =>
    cases kv with
    | mk k' e =>
      simp only [updateDescription, List.map_cons]
      by_cases hk : k' = k
      · rw [if_pos hk]
        subst hk
        simp [lookup?]
      · rw [if_neg hk]
        simp only [updateDescription] at ih
        simp [lookup?, hk, ih]

theorem lookup?_updateDescription_other (res : List (String × VarEntry)) (k1 : String) (d : Yaml)
    (k : String) (hk : ¬ (k1 = k)) :
    lookup? (updateDescription res k1 d) k = lookup? res k := by
  induction res with
  | nil => rfl
  | cons kv rest ih =>
    cases kv with
    | mk k' e =>
      simp only [updateDescription, List.map_cons]
      simp only [updateDescription] at ih
      by_cases hk' : k' = k1
      · rw [if_pos hk']
        subst hk'
        simp [lookup?, hk, ih]
      · rw [if_neg hk']
        by_cases hk2 : k' = k <;> simp [lookup?, hk2, ih]

theorem addManifestVars_preserves (k : String) :
    ∀ mvars : List (String × Yaml), hasKey mvars k = false →
    ∀ res e, lookup? res k = some e → lookup? (addManifestVars res mvars) k = some e := by
  intro mvars
  induction mvars with
  | nil => intro _ res e h; simpa [addManifestVars] using h
  | cons kv rest ih =>
    intro hk res e h
    cases kv with
    | mk k1 d1 =>
      have hk' : ¬ (k1 = k) ∧ hasKey rest k = false := by simpa [hasKey] using hk
      simp only [addManifestVars]
      by_cases h1 : hasKey res k1 = true
      · rw [if_pos h1]
        refine ih hk'.2 _ e ?_
        rw [lookup?_updateDescription_other _ _ _ _ hk'.1]
        exact h
      · rw [if_neg h1]
        exact ih hk'.2 _ e (lookup?_append_left _ _ _ _ h)

theorem addManifestVars_adds_description (k : String) (d : Yaml) :
    ∀ mvars : List (String × Yaml), (mvars.map Prod.fst).Nodup →
    lookup? mvars k = some d →
    ∀ res e, lookup? res k = some e →
      lookup? (addManifestVars res mvars) k = some { e with description := d } := by
  intro mvars
  induction mvars with
  | nil => intro _ hl; simp [lookup?] at hl
  | cons kv rest ih =>
    intro hnd hl res e h
    cases kv with
    | mk k1 d1 =>
      simp only [addManifestVars]
      by_cases hk1 : k1 = k
      · subst hk1
        have hd : d1 = d := by simpa [lookup?] using hl
        subst hd
        have h1 : hasKey res k1 = true := by
          rw [hasKey_eq_isSome_lookup, h]; rfl
        rw [if_pos h1]
        have hrest : hasKey rest k1 = false := by
          rw [hasKey_false_iff]
          have hnd2 : (k1 :: rest.map Prod.fst).Nodup := by simpa using hnd
          exact (List.nodup_cons.mp hnd2).1
        refine addManifestVars_preserves k1 rest hrest _ _ ?_
        rw [lookup?_updateDescription_self, h]
        rfl
      · have hl' : lookup? rest k = some d := by simpa [lookup?, hk1] using hl
        have hnd2 : (k1 :: rest.map Prod.fst).Nodup := by simpa using hnd
        have hnd' := (List.nodup_cons.mp hnd2).2
        by_cases h1 : hasKey res k1 = true
        · rw [if_pos h1]
          refine ih hnd' hl' _ e ?_
          rw [lookup?_updateDescription_other _ _ _ _ hk1]
          exact h
        · rw [if_neg h1]
          exact ih hnd' hl' _ e (lookup?_append_left _ _ _ _ h)

/-- C3: the variable-merge invariant.  First, a key present in both the
defaults and the vars file makes `get_variables` fail with the
`set twice` error.  Second, a key present in the defaults file and in the
manifest variable-description map ends up, when `get_variables` succeeds,
with the defaults value, the manifest description, and the non-constant
`default` kind (not the constant `var` kind). -/
theorem get_variables_merge_invariant (r : Role) (k : String) :
    (hasKey (r.defaults.getD []) k = true → hasKey (r.vars.getD []) k = true →
      ∃ k2, r.get_variables = .error (k2 ++ ": variable set twice in vars/ and defaults/")) ∧
    (∀ v d m mvars res,
      ((r.defaults.getD []).map Prod.fst).Nodup →
      lookup? (r.defaults.getD []) k = some v →
      r.get_manifest = .ok m →
      lookup? m "variables" = some (.map mvars) →
      (mvars.map Prod.fst).Nodup →
      lookup? mvars k = some d →
      r.get_variables = .ok res →
      lookup? res k = some ⟨d, v, some "default"⟩) := by
  constructor
  · intro hd hv
    have hres0 : hasKey (defaultsEntries (r.defaults.getD [])) k = true := by
      rw [hasKey_defaultsEntries]; exact hd
    obtain ⟨k2, he⟩ := addVars_error_of_mem (r.vars.getD []) _ k hres0 hv
    exact ⟨k2, by simp [Role.get_variables, he]⟩
  · intro v d m mvars res hnd hdl hm hmv hndm hdm hres
    have h0 : lookup? (defaultsEntries (r.defaults.getD [])) k
        = some ⟨Yaml.null, v, some "default"⟩ := by
      rw [lookup?_defaultsEntries _ _ hnd, hdl]; rfl
    cases ha : addVars (defaultsEntries (r.defaults.getD [])) (r.vars.getD []) with
    | error e => simp [Role.get_variables, ha] at hres
    | ok res1 =>
      have h1 : lookup? res1 k = some ⟨Yaml.null, v, some "default"⟩ :=
        addVars_ok_lookup _ _ _ ha k _ h0
      have hres' : res = addManifestVars res1 mvars := by
        simp only [Role.get_variables, ha, hm, hmv, Except.ok.injEq] at hres
        exact hres.symm
      rw [hres']
      exact addManifestVars_adds_description k d mvars hndm hdm res1 _ h1

/-- C3 witness: the theorem applied to a role with a vars/defaults key
clash, and to a role whose defaults variable is described in the manifest. -/
theorem get_variables_merge_invariant_witness :
    (∃ k2, roleVarClash.get_variables
      = .error (k2 ++ ": variable set twice in vars/ and defaults/")) ∧
    roleVarDescribed.get_variables
      = .ok [("foo_x", ⟨Yaml.str "the x value", Yaml.int 1, some "default"⟩)] ∧
    lookup? [("foo_x", (⟨Yaml.str "the x value", Yaml.int 1, some "default"⟩ : VarEntry))] "foo_x"
      = some ⟨Yaml.str "the x value", Yaml.int 1, some "default"⟩ := by
  refine ⟨(get_variables_merge_invariant roleVarClash "foo_x").1 rfl rfl, rfl, ?_⟩
  exact (get_variables_merge_invariant roleVarDescribed "foo_x").2
    (Yaml.int 1) (Yaml.str "the x value") _ [("foo_x", Yaml.str "the x value")]
    [("foo_x", ⟨Yaml.str "the x value", Yaml.int 1, some "default"⟩)]
    (by decide) rfl rfl rfl (by decide) rfl rfl

/-- C1 (code bug): with the `manifest` flag enabled and a manifest whose
`galaxy_info` lacks `author`, `check` does not collect the author warning —
the `manifest_has_author` predicate reads `role.manifest`, an attribute
class `Role` never defines, so `check` raises `AttributeError` and writes
no report at all. -/
theorem check_manifest_flag_crashes_on_author :
    check roleNoAuthor [] ["manifest"]
      = .error "AttributeError: 'Role' object has no attribute 'manifest'" := by
  rfl

/-- The accumulator-threading inner loop equals the per-object ordering
specification with the accumulator prepended. -/
theorem rulesPass_eq_objectWarnings (helperRole : Role) (key : String) (obj : RuleObject)
    (ms : List RuleManifest) : ∀ acc,
    rulesPass helperRole key obj ms acc
      = match objectWarnings helperRole key obj ms with
        | .error e => .error e
        | .ok ws => .ok (acc ++ ws) := by
  induction ms with
  | nil => intro acc; simp [rulesPass, objectWarnings]
  | cons m rest ih =>
    intro acc
    simp only [rulesPass, objectWarnings]
    cases hev : evalRule helperRole key obj m with
    | error e => simp [hev]
    | ok w =>
      simp only [hev]
      rw [ih (acc ++ w)]
      cases how : objectWarnings helperRole key obj rest with
      | error e => simp [how]
      | ok ws => simp [how, List.append_assoc]

/-- The accumulator-threading outer loop equals the per-kind ordering
specification with the accumulator prepended. -/
theorem check_objects_eq_kindWarnings (helperRole : Role) (ms : List RuleManifest) :
    ∀ objs acc,
    check_objects helperRole objs ms acc
      = match kindWarnings helperRole objs ms with
        | .error e => .error e
        | .ok ws => .ok (acc ++ ws) := by
  intro objs
  induction objs with
  | nil => intro acc; simp [check_objects, kindWarnings]
  | cons ko rest ih =>
    intro acc
    cases ko with
    | mk key obj =>
      simp only [check_objects, kindWarnings]
      rw [rulesPass_eq_objectWarnings]
      cases how : objectWarnings helperRole key obj ms with
      | error e => simp [how]
      | ok w =>
        simp only [how]
        rw [ih (acc ++ w)]
        cases hkw : kindWarnings helperRole rest ms with
        | error e => simp [hkw]
        | ok ws => simp [hkw, List.append_assoc]

/-- C5: whenever `check` completes with a warning report, the report is the
concatenation, in the fixed kind order role then variable then subdir then
task, of per-kind blocks; each block lists objects in enumeration order and,
per object, rules in evaluation order (`kindWarnings` over
`objectWarnings`); and a second run on the identical inputs returns the
identical sequence. -/
theorem check_report_grouped_and_ordered (r : Role) (dirEntries : List (String × Bool))
    (flags : List String) (ws : List String)
    (h : check r dirEntries flags = .ok ws) :
    ∃ roleMs varMs subMs taskMs vars wRole wVar wSub wTask,
      filterByType (selectedManifests flags) "role" = .ok roleMs ∧
      filterByType (selectedManifests flags) "variable" = .ok varMs ∧
      filterByType (selectedManifests flags) "subdir" = .ok subMs ∧
      filterByType (selectedManifests flags) "task" = .ok taskMs ∧
      r.get_variables = .ok vars ∧
      kindWarnings r [("role '" ++ r.name ++ "'", RuleObject.roleObj r)] roleMs = .ok wRole ∧
      kindWarnings r (vars.map fun kv => ("variable '" ++ kv.1 ++ "'", RuleObject.varName kv.1))
        varMs = .ok wVar ∧
      kindWarnings r ((dirEntries.filter fun d2 => !(strStartsWith d2.1 ".") && d2.2).map
        fun d2 => ("subdir '" ++ d2.1 ++ "'", RuleObject.subdirName d2.1)) subMs = .ok wSub ∧
      kindWarnings r ((get_tasks r.tasksFiles).map fun kv => (kv.1, RuleObject.taskObj kv.2))
        taskMs = .ok wTask ∧
      ws = wRole ++ wVar ++ wSub ++ wTask ∧
      (∀ ws2, check r dirEntries flags = .ok ws2 → ws2 = ws) := by
  have hcopy := h
  simp only [check] at h
  cases h1 : filterByType (selectedManifests flags) "role" with
  | error e => simp [h1] at h
  | ok roleMs =>
  simp only [h1] at h
  rw [check_objects_eq_kindWarnings] at h
  cases hw1 : kindWarnings r [("role '" ++ r.name ++ "'", RuleObject.roleObj r)] roleMs with
  | error e => simp [hw1] at h
  | ok wRole =>
  simp only [hw1] at h
  cases h5 : r.get_variables with
  | error e => simp [h5] at h
  | ok vars =>
  simp only [h5] at h
  cases h2 : filterByType (selectedManifests flags) "variable" with
  | error e => simp [h2] at h
  | ok varMs =>
  simp only [h2] at h
  rw [check_objects_eq_kindWarnings] at h
  cases hw2 : kindWarnings r
      (vars.map fun kv => ("variable '" ++ kv.1 ++ "'", RuleObject.varName kv.1)) varMs with
  | error e => simp [hw2] at h
  | ok wVar =>
  simp only [hw2] at h
  cases h3 : filterByType (selectedManifests flags) "subdir" with
  | error e => simp [h3] at h
  | ok subMs =>
  simp only [h3] at h
  rw [check_objects_eq_kindWarnings] at h
  cases hw3 : kindWarnings r ((dirEntries.filter fun d2 => !(strStartsWith d2.1 ".") && d2.2).map
      fun d2 => ("subdir '" ++ d2.1 ++ "'", RuleObject.subdirName d2.1)) subMs with
  | error e => simp [hw3] at h
  | ok wSub =>
  simp only [hw3] at h
  cases h4 : filterByType (selectedManifests flags) "task" with
  | error e => simp [h4] at h
  | ok taskMs =>
  simp only [h4] at h
  rw [check_objects_eq_kindWarnings] at h
  cases hw4 : kindWarnings r
      ((get_tasks r.tasksFiles).map fun kv => (kv.1, RuleObject.taskObj kv.2)) taskMs with
  | error e => simp [hw4] at h
  | ok wTask =>
  simp only [hw4, List.nil_append, Except.ok.injEq] at h
  refine ⟨roleMs, varMs, subMs, taskMs, vars, wRole, wVar, wSub, wTask,
    rfl, rfl, rfl, rfl, rfl, hw1, hw2, hw3, hw4, h.symm, ?_⟩
  intro ws2 hrun
  rw [hcopy] at hrun
  injection hrun with hh
  exact hh.symm

/-- C5 witness: the theorem applied to a run that reports one layout
warning for the undefined sub-directory `weird`. -/
theorem check_report_grouped_and_ordered_witness :
    check roleBare [("tasks", true), ("weird", true)] ["layout"]
      = .ok [warningText "undefined role sub-directory" "subdir 'weird'" "layout"] ∧
    (∃ roleMs varMs subMs taskMs vars wRole wVar wSub wTask,
      filterByType (selectedManifests ["layout"]) "role" = .ok roleMs ∧
      filterByType (selectedManifests ["layout"]) "variable" = .ok varMs ∧
      filterByType (selectedManifests ["layout"]) "subdir" = .ok subMs ∧
      filterByType (selectedManifests ["layout"]) "task" = .ok taskMs ∧
      roleBare.get_variables = .ok vars ∧
      kindWarnings roleBare [("role '" ++ roleBare.name ++ "'", RuleObject.roleObj roleBare)]
        roleMs = .ok wRole ∧
      kindWarnings roleBare
        (vars.map fun kv => ("variable '" ++ kv.1 ++ "'", RuleObject.varName kv.1))
        varMs = .ok wVar ∧
      kindWarnings roleBare
        (((([("tasks", true), ("weird", true)] : List (String × Bool))).filter
            fun d2 => !(strStartsWith d2.1 ".") && d2.2).map
          fun d2 => ("subdir '" ++ d2.1 ++ "'", RuleObject.subdirName d2.1)) subMs = .ok wSub ∧
      kindWarnings roleBare
        ((get_tasks roleBare.tasksFiles).map fun kv => (kv.1, RuleObject.taskObj kv.2))
        taskMs = .ok wTask ∧
      [warningText "undefined role sub-directory" "subdir 'weird'" "layout"]
        = wRole ++ wVar ++ wSub ++ wTask ∧
      (∀ ws2, check roleBare [("tasks", true), ("weird", true)] ["layout"] = .ok ws2 →
        ws2 = [warningText "undefined role sub-directory" "subdir 'weird'" "layout"])) :=
  ⟨rfl, check_report_grouped_and_ordered roleBare [("tasks", true), ("weird", true)] ["layout"]
    [warningText "undefined role sub-directory" "subdir 'weird'" "layout"] rfl⟩

end Universe
